import Mathlib

/-!
Verification development for the vroom-csv CSV reader (jimhester/simdcsv).

The repository ships the Python binding (src/python/src/vroom_csv/__init__.py),
its test suite, and a data generator; the native parsing core
(vroom_csv._core) is not part of the sources.  The definitions below therefore
model the core from the specification (sections 3 to 8 of spec.md): dialect
detection, the quote-aware byte scanner, header handling, row selection,
type inference over the lattice NULL, BOOL, INT64, FLOAT64, STRING, widening,
null tokens, column materialization and the chunked table assembly.  The
export lists of the Python package are embedded from the real __init__.py.
FLOAT64 cell values are modelled as exact rationals of the decimal literal,
with finiteness taken as magnitude below 2 to the power 1024.
-/

/-- Modelled from the spec: the LogicalType lattice of section 3,
NULL below BOOL below INT64 below FLOAT64 below STRING. -/
inductive LogicalType where
  | null
  | bool
  | int64
  | float64
  | string
deriving DecidableEq, Repr

/-- Rank of a logical type in the chain; the join is the maximum rank. -/
def LogicalType.rank : LogicalType → Nat
  | .null => 0
  | .bool => 1
  | .int64 => 2
  | .float64 => 3
  | .string => 4

/-- Modelled from the spec: the lattice join, the smallest type at least
both operands in the chain. -/
def lub (a b : LogicalType) : LogicalType :=
  if a.rank ≤ b.rank then b else a

/-- Decimal digit test, as byte comparison against the digit range. -/
def is_digit (c : Char) : Bool := '0' ≤ c && c ≤ '9'

/-- Numeric value of a digit character. -/
def digit_val (c : Char) : Nat := c.toNat - '0'.toNat

/-- Read a maximal run of decimal digits: returns the digit count, the value
of the run read most-significant first, and the unconsumed remainder. -/
def read_digits : List Char → Nat × Nat × List Char
  | [] => (0, 0, [])
  | c :: cs =>
    if is_digit c then
      let t := read_digits cs
      (t.1 + 1, digit_val c * 10 ^ t.1 + t.2.1, t.2.2)
    else (0, 0, c :: cs)

/-- Modelled from the spec: section 4.5 step 3, a cell parses as INT64 when it
matches an optional minus then digits and the value is a 64-bit signed
integer (range-checked); the native parser is not under src. -/
def parse_int64_chars : List Char → Option Int
  | [] => none
  | c :: cs =>
    if c = '-' then
      let t := read_digits cs
      if 0 < t.1 ∧ t.2.2 = [] ∧ (t.2.1 : Int) ≤ 2 ^ 63 then some (-(t.2.1 : Int))
      else none
    else
      let t := read_digits (c :: cs)
      if 0 < t.1 ∧ t.2.2 = [] ∧ t.2.1 < 2 ^ 63 then some ((t.2.1 : Int))
      else none

/-- Integer parse of a cell string. -/
def parse_int64 (s : String) : Option Int := parse_int64_chars s.data

/-- Consume an optional sign; the flag is true for a consumed minus. -/
def take_sign : List Char → Bool × List Char
  | [] => (false, [])
  | c :: r => if c = '-' then (true, r) else if c = '+' then (false, r) else (false, c :: r)

/-- Consume an optional fraction: a dot followed by digits. -/
def take_frac : List Char → Nat × Nat × List Char
  | [] => (0, 0, [])
  | c :: r => if c = '.' then read_digits r else (0, 0, c :: r)

/-- Consume an optional exponent suffix; none when the remainder is not a
well-formed exponent read to the end of input. -/
def take_exp : List Char → Option Int
  | [] => some 0
  | c :: r =>
    if c = 'e' ∨ c = 'E' then
      let p := take_sign r
      let t := read_digits p.2
      if 0 < t.1 ∧ t.2.2 = [] then some (if p.1 then -(t.2.1 : Int) else (t.2.1 : Int))
      else none
    else none

/-- Exact value of a decimal double literal: the integer num scaled by ten to
the power exp.  Two parses of one pipeline compare structurally. -/
structure DecFloat where
  num : Int
  exp : Int
deriving DecidableEq, Repr

/-- Rational value denoted by a DecFloat. -/
def DecFloat.toRat (d : DecFloat) : Rat := (d.num : Rat) * (10 : Rat) ^ d.exp

/-- Finiteness test of the double range: the magnitude of num times ten to the
power e stays below two to the power 1024, decided in integer arithmetic. -/
def dec_finite (num : Int) (e : Int) : Bool :=
  if 0 ≤ e then num.natAbs * 10 ^ e.toNat < 2 ^ 1024
  else num.natAbs < 2 ^ 1024 * 10 ^ (-e).toNat

/-- Assemble the value of a parsed decimal literal and apply the finiteness
bound of the double range. -/
def mk_double (sg : Bool) (vi kf vf : Nat) (ex : Int) : Option DecFloat :=
  let m : Int := ((vi * 10 ^ kf + vf : Nat) : Int)
  let m' := if sg then -m else m
  let e : Int := ex - (kf : Int)
  if dec_finite m' e then some ⟨m', e⟩ else none

/-- Modelled from the spec: section 4.5 step 4, a cell parses as FLOAT64 when
it is a C-locale finite double literal: optional sign, digits with optional
fraction, optional exponent; the value is kept exactly. -/
def parse_double_chars (cs : List Char) : Option DecFloat :=
  let p1 := take_sign cs
  let p2 := read_digits p1.2
  let p3 := take_frac p2.2.2
  if p2.1 + p3.1 = 0 then none
  else
    match take_exp p3.2.2 with
    | none => none
    | some ex => mk_double p1.1 p2.2.1 p3.1 p3.2.1 ex

/-- Double parse of a cell string. -/
def parse_double (s : String) : Option DecFloat := parse_double_chars s.data

/-- Modelled from the spec: the boolean grammar of section 4.5 step 2, exactly
the six listed forms. -/
def bool_tokens : List String := ["true", "false", "TRUE", "FALSE", "True", "False"]

/-- Boolean parse of a cell string: the six listed forms and nothing else. -/
def parse_bool (s : String) : Option Bool :=
  if s = "true" ∨ s = "TRUE" ∨ s = "True" then some true
  else if s = "false" ∨ s = "FALSE" ∨ s = "False" then some false
  else none

/-- Modelled from the spec: the reader options of section 6 that the claims
exercise.  The delimiter is the raw option string (validated to one byte);
none means dialect detection.  The dtype field is the per-column override
mapping. -/
structure Options where
  delimiter : Option String := none
  has_header : Option Bool := none
  num_threads : Nat := 4
  skip_rows : Nat := 0
  n_rows : Option Nat := none
  infer_types : Bool := true
  type_inference_rows : Nat := 1000
  null_values : List String := ["NA", "N/A", "null", "NULL"]
  empty_is_null : Bool := true
  dtype : List (String × LogicalType) := []
deriving Repr

/-- Modelled from the spec: the NullTokenSet of section 3; the empty string
belongs exactly when empty_is_null is set. -/
def null_tokens (o : Options) : List String :=
  (if o.empty_is_null then [""] else []) ++ o.null_values

/-- Modelled from the spec: the per-cell classification of section 4.5, in
order null token, boolean grammar, int64, finite double, string. -/
def classify (toks : List String) (s : String) : LogicalType :=
  if s ∈ toks then .null
  else if (parse_bool s).isSome then .bool
  else if (parse_int64 s).isSome then .int64
  else if (parse_double s).isSome then .float64
  else .string

/-- Modelled from the spec: the scanner states of section 4.1. -/
inductive ScanState where
  | unquoted
  | quoted
  | quotedSeenQuote
deriving DecidableEq, Repr

/-- String of an accumulated field. -/
def mk_field (fld : List Char) : String := String.mk fld

/-- Modelled from the spec: the resumable byte scanner of section 4.1 run to
completion over a whole buffer, with the transitions written there: CRLF is
one record end, an unescaped quote at the start of a field opens a quoted
region, a doubled quote inside one is an escaped quote, a stray character
after a closing quote is lenient data resuming the quoted region, an
unterminated quoted field at end of input is an error, and an empty trailing
row from a final terminator is dropped. -/
def scan_loop (delim q : Char) :
    Nat → List Char → ScanState → List Char → List String → List (List String) →
    Except String (List (List String))
  | _, [], st, fld, row, acc =>
    match st with
    | .quoted => .error "unterminated quoted field at end of input"
    | .quotedSeenQuote => .ok (acc ++ [row ++ [mk_field fld]])
    | .unquoted =>
      if fld = [] ∧ row = [] then .ok acc
      else .ok (acc ++ [row ++ [mk_field fld]])
  | 0, _ :: _, _, _, _, _ => .error "scanner fuel exhausted"
  | fuel + 1, c :: rest, .unquoted, fld, row, acc =>
    if c = delim then scan_loop delim q fuel rest .unquoted [] (row ++ [mk_field fld]) acc
    else if c = '\n' then
      scan_loop delim q fuel rest .unquoted [] [] (acc ++ [row ++ [mk_field fld]])
    else if c = '\r' then
      if rest.head? = some '\n' then
        scan_loop delim q fuel rest.tail .unquoted [] [] (acc ++ [row ++ [mk_field fld]])
      else scan_loop delim q fuel rest .unquoted [] [] (acc ++ [row ++ [mk_field fld]])
    else if c = q ∧ fld = [] then scan_loop delim q fuel rest .quoted fld row acc
    else scan_loop delim q fuel rest .unquoted (fld ++ [c]) row acc
  | fuel + 1, c :: rest, .quoted, fld, row, acc =>
    if c = q then scan_loop delim q fuel rest .quotedSeenQuote fld row acc
    else scan_loop delim q fuel rest .quoted (fld ++ [c]) row acc
  | fuel + 1, c :: rest, .quotedSeenQuote, fld, row, acc =>
    if c = q then scan_loop delim q fuel rest .quoted (fld ++ [c]) row acc
    else if c = delim then scan_loop delim q fuel rest .unquoted [] (row ++ [mk_field fld]) acc
    else if c = '\n' then
      scan_loop delim q fuel rest .unquoted [] [] (acc ++ [row ++ [mk_field fld]])
    else if c = '\r' then
      if rest.head? = some '\n' then
        scan_loop delim q fuel rest.tail .unquoted [] [] (acc ++ [row ++ [mk_field fld]])
      else scan_loop delim q fuel rest .unquoted [] [] (acc ++ [row ++ [mk_field fld]])
    else scan_loop delim q fuel rest .quoted (fld ++ [c]) row acc

/-- Scan a whole buffer into rows of decoded fields with the double-quote
dialect quote.  The fuel is the input length: every step consumes at least
one character, so the scan always runs to the end of input. -/
def scan_rows (delim : Char) (content : String) : Except String (List (List String)) :=
  scan_loop delim '"' content.data.length content.data .unquoted [] [] []

/-- Modelled from the spec: the delimiter candidates of section 4.3, in
tie-break order. -/
def delim_candidates : List Char := [',', '\t', ';', '|']

/-- Detection sample: up to the first 64 KiB of the input. -/
def sample_prefix (content : String) : String := String.mk (content.data.take 65536)

/-- Field counts per row of a candidate scan; empty on a scan error. -/
def field_counts (d : Char) (content : String) : List Nat :=
  match scan_rows d content with
  | .ok rows => rows.map List.length
  | .error _ => []

/-- Modelled from the spec: the delimiter score of section 4.3, mean field
count damped by the variance of field counts.  With n rows, sum of counts S
and sum of squared counts Q, the score mean divided by one plus variance
equals the fraction S times n over n squared plus n times Q minus S squared;
it is kept as that numerator and positive denominator pair so that scores
compare by integer cross multiplication. -/
def delim_score (counts : List Nat) : Nat × Nat :=
  match counts with
  | [] => (0, 1)
  | _ =>
    let n := counts.length
    let s := counts.sum
    let qq := (counts.map fun k => k * k).sum
    (s * n, n * n + n * qq - s * s)

/-- Strict comparison of two scores given as fraction pairs. -/
def score_lt (a b : Nat × Nat) : Bool := a.1 * b.2 < b.1 * a.2

/-- Modelled from the spec: pick the highest-scoring candidate, ties broken in
candidate order. -/
def detect_delimiter (content : String) : Char :=
  let sample := sample_prefix content
  let scored := delim_candidates.map (fun d => (d, delim_score (field_counts d sample)))
  match scored with
  | [] => ','
  | x :: xs => (xs.foldl (fun best p => if score_lt best.2 p.2 then p else best) x).1

/-- Delimiter actually used: the validated override, or detection. -/
def effective_delim (o : Options) (content : String) : Char :=
  match o.delimiter with
  | some d => (d.data.head?).getD ','
  | none => detect_delimiter content

/-- Types that count as typed body evidence for header detection. -/
def typed_types : List LogicalType := [.bool, .int64, .float64]

/-- Modelled from the spec: header detection of section 4.3; row 0 must be all
STRING while some column of the first fifty body rows infers BOOL, INT64 or
FLOAT64. -/
def detect_header (toks : List String) (rows : List (List String)) : Bool :=
  match rows with
  | [] => false
  | r0 :: body =>
    let bodyS := body.take 50
    (r0.all fun s => classify toks s = .string) &&
    ((List.range r0.length).any fun j =>
      ((bodyS.map fun r => (r[j]?).getD "").foldl (fun t s => lub t (classify toks s)) .null)
        ∈ typed_types)

/-- Header presence actually used: the caller override always wins. -/
def effective_header (o : Options) (toks : List String) (rows : List (List String)) : Bool :=
  match o.has_header with
  | some b => b
  | none => detect_header toks rows

/-- Auto-generated positional column names used when there is no header. -/
def auto_names (w : Nat) : List String :=
  (List.range w).map fun i => "column_" ++ toString i

deriving instance DecidableEq for Except

/-- Modelled from the spec: the inference sample size of section 4.5, default
one thousand rows, zero meaning all rows. -/
def sample_size (o : Options) (total : Nat) : Nat :=
  if o.type_inference_rows = 0 then total else o.type_inference_rows

/-- Modelled from the spec: the per-column merge of section 4.5, the lattice
join of the classes of every sampled cell. -/
def infer_sample_type (toks : List String) (o : Options) (cells : List String) : LogicalType :=
  ((cells.take (sample_size o cells.length)).map (classify toks)).foldl lub .null

/-- Whether a cell parses under a column type; null tokens always do. -/
def can_parse_as (toks : List String) (t : LogicalType) (s : String) : Bool :=
  s ∈ toks ||
    match t with
    | .null => false
    | .bool => (parse_bool s).isSome
    | .int64 => (parse_int64 s).isSome
    | .float64 => (parse_double s).isSome
    | .string => true

/-- Modelled from the spec: on-the-fly widening of section 4.5 when a late
cell fails to parse as the inferred type: INT64 to FLOAT64 to STRING, BOOL to
STRING, a NULL column taking the class of its first non-null cell. -/
def widen_step (toks : List String) (t : LogicalType) (s : String) : LogicalType :=
  if can_parse_as toks t s then t
  else
    match t with
    | .null => classify toks s
    | .bool => .string
    | .int64 => if (parse_double s).isSome then .float64 else .string
    | .float64 => .string
    | .string => .string

/-- Final inferred type of a column: the sample join, widened over the cells
after the sample. -/
def column_type (o : Options) (cells : List String) : LogicalType :=
  let toks := null_tokens o
  (cells.drop (sample_size o cells.length)).foldl (widen_step toks)
    (infer_sample_type toks o cells)

/-- Per-column dtype override lookup. -/
def lookup_dtype (o : Options) (name : String) : Option LogicalType :=
  (o.dtype.find? fun p => p.1 = name).map fun p => p.2

/-- Modelled from the spec: the type a column is materialized at, sections 4.5
and 4.6: the explicit dtype if given, the inferred and widened type when
inference is on, STRING otherwise. -/
def materialized_type (o : Options) (name : String) (cells : List String) : LogicalType :=
  match lookup_dtype o name with
  | some t => t
  | none => if o.infer_types then column_type o cells else .string

/-- A materialized cell value of an Arrow column. -/
inductive CellValue where
  | nullv
  | boolv (b : Bool)
  | intv (n : Int)
  | floatv (d : DecFloat)
  | strv (s : String)
deriving DecidableEq, Repr

/-- Modelled from the spec: cell decoding of section 4.6; a null token is
null, a cell that fails to parse under the column type is nullified. -/
def decode_cell (toks : List String) (t : LogicalType) (s : String) : CellValue :=
  if s ∈ toks then .nullv
  else
    match t with
    | .null => .nullv
    | .bool =>
      match parse_bool s with
      | some b => .boolv b
      | none => .nullv
    | .int64 =>
      match parse_int64 s with
      | some n => .intv n
      | none => .nullv
    | .float64 =>
      match parse_double s with
      | some d => .floatv d
      | none => .nullv
    | .string => .strv s

/-- An exported Arrow column: name, logical type and materialized values. -/
structure ArrowColumn where
  name : String
  logical_type : LogicalType
  values : List CellValue
deriving DecidableEq, Repr

/-- Number of null positions of a column, the complement of the validity
bitmap popcount. -/
def null_count (c : ArrowColumn) : Nat := c.values.count CellValue.nullv

/-- Split a list into contiguous chunks of size c, driven by fuel for
structural recursion; the fuel is always at least the list length. -/
def chunks_aux (c : Nat) : Nat → List (List String) → List (List (List String))
  | 0, _ => []
  | _ + 1, [] => []
  | fuel + 1, x :: xs => ((x :: xs).take c) :: chunks_aux c fuel ((x :: xs).drop c)

/-- Modelled from the spec: the chunk planner of section 4.2 as seen in the
assembled table: rows split into near-equal contiguous batches, one batch for
small inputs or a single worker, batch count at least one. -/
def mk_batches (k : Nat) (rows : List (List String)) : List (List (List String)) :=
  match rows with
  | [] => [[]]
  | _ =>
    let kk := max 1 k
    let c := max 1 ((rows.length + kk - 1) / kk)
    chunks_aux c rows.length rows

/-- Modelled from the spec: the errors of section 7 that the claims exercise,
option validation, I/O failure and structural parse faults. -/
inductive CsvError where
  | valueError (msg : String)
  | ioError (msg : String)
  | parseError (msg : String)
deriving DecidableEq, Repr

/-- Modelled from the spec: option validation of sections 6 and 7, performed
before any I/O; the delimiter override must be a single character. -/
def validate_options (o : Options) : Option CsvError :=
  match o.delimiter with
  | some d =>
    if d.length = 1 then none
    else some (.valueError "delimiter must be a single character")
  | none => none

/-- Modelled from the spec: the in-memory Table of section 6; rows are the
selected data rows as decoded field strings, batches are derived from the
worker count used to parse. -/
structure Table where
  column_names : List String
  rows : List (List String)
  num_threads : Nat
deriving DecidableEq, Repr

/-- Number of rows of the table. -/
def Table.num_rows (t : Table) : Nat := t.rows.length

/-- Number of columns of the table. -/
def Table.num_columns (t : Table) : Nat := t.column_names.length

/-- Record batches of the table, split for the worker count. -/
def Table.batches (t : Table) : List (List (List String)) :=
  mk_batches t.num_threads t.rows

/-- Number of record batches. -/
def Table.num_chunks (t : Table) : Nat := t.batches.length

/-- Row accessor: the decoded field texts of data row i, as strings. -/
def Table.row (t : Table) (i : Nat) : Option (List String) := t.rows[i]?

/-- Column accessor by position: the decoded field texts, as strings. -/
def Table.column_at (t : Table) (j : Nat) : Option (List String) :=
  if j < t.column_names.length then some (t.rows.map fun r => (r[j]?).getD "")
  else none

/-- Index of a column name. -/
def find_index : List String → String → Option Nat
  | [], _ => none
  | n :: ns, x => if n = x then some 0 else (find_index ns x).map (· + 1)

/-- Column accessor by name: the decoded field texts, as strings. -/
def Table.column (t : Table) (name : String) : Option (List String) :=
  match find_index t.column_names name with
  | some j => t.column_at j
  | none => none

/-- Header names and data rows of a scanned file: the header row when
present, auto-generated positional names otherwise. -/
def parse_file (o : Options) (content : String) :
    Except CsvError (List String × List (List String)) :=
  match scan_rows (effective_delim o content) content with
  | .error m => .error (.parseError m)
  | .ok raws =>
    let toks := null_tokens o
    let hasH := effective_header o toks raws
    let names := if hasH then (raws.head?).getD [] else auto_names ((raws.head?).getD []).length
    let dataRows := if hasH then raws.tail else raws
    .ok (names, dataRows)

/-- Modelled from the spec: row selection of section 6, skip_rows dropped
after the header, then at most n_rows kept. -/
def select_rows (o : Options) (dataRows : List (List String)) : List (List String) :=
  let afterSkip := dataRows.drop o.skip_rows
  match o.n_rows with
  | some n => afterSkip.take n
  | none => afterSkip

/-- Modelled from the spec: read_csv of section 6 over explicit file
contents; none stands for an unreadable path.  Options are validated before
the contents are touched, the file is scanned, the header split off, rows
selected, and the column counts checked at finalization. -/
def read_csv (contents : Option String) (o : Options) : Except CsvError Table :=
  match validate_options o with
  | some e => .error e
  | none =>
    match contents with
    | none => .error (.ioError "No such file or directory")
    | some content =>
      match parse_file o content with
      | .error e => .error e
      | .ok (names, dataRows) =>
        let sel := select_rows o dataRows
        if sel.all fun r => r.length = names.length then
          .ok { column_names := names, rows := sel, num_threads := o.num_threads }
        else .error (.parseError "inconsistent column count")

/-- Arrow export of a table: one typed column per schema field, with types
from inference, widening or explicit dtypes, and values decoded under the
column type. -/
def arrow_columns (o : Options) (t : Table) : List ArrowColumn :=
  (List.range t.column_names.length).map fun j =>
    let name := (t.column_names[j]?).getD ""
    let cells := t.rows.map fun r => (r[j]?).getD ""
    let ty := materialized_type o name cells
    { name := name, logical_type := ty, values := cells.map (decode_cell (null_tokens o) ty) }

/-- A value yielded by the row-streaming reader: the raw field text without a
dtype, a typed value under an explicit dtype, none for nulls and parse
failures. -/
inductive RowValue where
  | rstr (s : String)
  | rint (n : Int)
  | rfloat (d : DecFloat)
  | rbool (b : Bool)
  | rnone
deriving DecidableEq, Repr

/-- Modelled from the spec: the cell value of the row-streaming reader; raw
text without a dtype, otherwise the parse under the explicit dtype with null
tokens and failures becoming none. -/
def row_value (toks : List String) (dt : Option LogicalType) (s : String) : RowValue :=
  match dt with
  | none => .rstr s
  | some t =>
    if s ∈ toks then .rnone
    else
      match t with
      | .int64 =>
        match parse_int64 s with
        | some n => .rint n
        | none => .rnone
      | .float64 =>
        match parse_double s with
        | some d => .rfloat d
        | none => .rnone
      | .bool =>
        match parse_bool s with
        | some b => .rbool b
        | none => .rnone
      | .string => .rstr s
      | .null => .rnone

/-- Result of the row-streaming reader: the column names in file order and
the finite sequence of per-row name-to-value mappings. -/
structure RowIter where
  column_names : List String
  rows_list : List (List (String × RowValue))
deriving DecidableEq, Repr

/-- Modelled from the spec: read_csv_rows of section 6 over explicit file
contents, sharing option validation, scanning, header handling and row
selection with read_csv, and yielding one name-to-value mapping per data
row. -/
def read_csv_rows (contents : Option String) (o : Options) : Except CsvError RowIter :=
  match validate_options o with
  | some e => .error e
  | none =>
    match contents with
    | none => .error (.ioError "No such file or directory")
    | some content =>
      match parse_file o content with
      | .error e => .error e
      | .ok (names, dataRows) =>
        let sel := select_rows o dataRows
        .ok { column_names := names,
              rows_list := sel.map fun r =>
                (List.range names.length).map fun j =>
                  let nm := (names[j]?).getD ""
                  (nm, row_value (null_tokens o) (lookup_dtype o nm) ((r[j]?).getD "")) }

/-- The names imported from vroom_csv._core by
src/python/src/vroom_csv/__init__.py lines 30 to 43. -/
def vroom_csv_core_imports : List String :=
  ["BatchedReader", "Dialect", "RecordBatch", "Table", "detect_dialect", "read_csv",
   "read_csv_batched", "VroomError", "ParseError", "IOError", "__version__",
   "LIBVROOM_VERSION"]

/-- The public export list __all__ of src/python/src/vroom_csv/__init__.py
lines 45 to 58. -/
def vroom_csv_all_exports : List String :=
  ["BatchedReader", "Dialect", "RecordBatch", "Table", "detect_dialect", "read_csv",
   "read_csv_batched", "VroomError", "ParseError", "IOError", "__version__",
   "LIBVROOM_VERSION"]

/-- Modelled from the spec: the public functions of section 6, read_csv,
detect_dialect and the row-streaming read_csv_rows. -/
def spec_public_functions : List String := ["read_csv", "detect_dialect", "read_csv_rows"]

theorem chunks_aux_join (c : Nat) (hc : 0 < c) :
    ∀ (fuel : Nat) (xs : List (List String)), xs.length ≤ fuel →
      (chunks_aux c fuel xs).flatten = xs := by
  intro fuel
  induction fuel with
  | zero =>
    intro xs h
    have : xs = [] := List.length_eq_zero.mp (Nat.le_zero.mp h)
    subst this
    simp [chunks_aux]
  | succ n ih =>
    intro xs h
    cases xs with
    | nil => simp [chunks_aux]
    | cons x xs =>
      have hlen : ((x :: xs).drop c).length ≤ n := by
        simp only [List.length_drop, List.length_cons]
        simp only [List.length_cons] at h
        omega
      simp only [chunks_aux, List.flatten_cons, ih _ hlen]
      exact List.take_append_drop c (x :: xs)

theorem mk_batches_flatten (k : Nat) (rows : List (List String)) :
    (mk_batches k rows).flatten = rows := by
  cases rows with
  | nil => simp [mk_batches]
  | cons r rs =>
    unfold mk_batches
    exact chunks_aux_join _ (Nat.le_max_left 1 _) _ _ (Nat.le_refl _)

theorem batches_length_sum (t : Table) :
    (t.batches.map List.length).sum = t.num_rows := by
  unfold Table.batches Table.num_rows
  rw [← List.length_flatten, mk_batches_flatten]

theorem read_csv_ok_inv (contents : Option String) (o : Options) (t : Table)
    (h : read_csv contents o = .ok t) :
    ∃ content names dataRows, contents = some content ∧
      parse_file o content = .ok (names, dataRows) ∧
      ((select_rows o dataRows).all fun r => r.length = names.length) = true ∧
      t = { column_names := names, rows := select_rows o dataRows,
            num_threads := o.num_threads } := by
  unfold read_csv at h
  split at h
  · cases h
  · split at h
    · cases h
    · split at h
      · cases h
      · rename_i content pr names dataRows heq
        simp only at h
        split at h
        · rename_i hall
          cases h
          exact ⟨content, names, dataRows, rfl, heq, hall, rfl⟩
        · cases h

/-- C1: for every input and every worker count, the table produced by
read_csv with otherwise default options has num_rows equal to the sum of the
record batch lengths, and equal to the number of data rows of the file, so no
chunk is dropped by the parallel split. -/
theorem read_csv_completeness (content : String) (k : Nat) (t : Table)
    (h : read_csv (some content) { num_threads := k } = .ok t) :
    t.num_rows = (t.batches.map List.length).sum ∧
    ∀ names dataRows,
      parse_file { num_threads := k } content = .ok (names, dataRows) →
      t.num_rows = dataRows.length := by
  obtain ⟨c, names, dataRows, hc, hp, hall, ht⟩ := read_csv_ok_inv _ _ _ h
  cases hc
  constructor
  · exact (batches_length_sum t).symm
  · intro names2 dataRows2 hp2
    rw [hp] at hp2
    cases hp2
    subst ht
    simp [Table.num_rows, select_rows]

/-- The simple CSV fixture of the test suite. -/
def simple_csv : String :=
  "name,age,city\nAlice,30,New York\nBob,25,Los Angeles\nCharlie,35,Chicago\n"

/-- The table read_csv produces from the simple fixture. -/
def simple_table : Table :=
  { column_names := ["name", "age", "city"],
    rows := [["Alice", "30", "New York"], ["Bob", "25", "Los Angeles"],
             ["Charlie", "35", "Chicago"]],
    num_threads := 4 }

/-- Witness for C1 at the simple fixture. -/
theorem read_csv_completeness_witness :
    simple_table.num_rows = (simple_table.batches.map List.length).sum ∧
    simple_table.num_rows = 3 := by
  have h := read_csv_completeness simple_csv 4 simple_table (by decide)
  refine ⟨h.1, ?_⟩
  have h2 := h.2 ["name", "age", "city"]
    [["Alice", "30", "New York"], ["Bob", "25", "Los Angeles"], ["Charlie", "35", "Chicago"]]
    (by decide)
  simpa using h2

theorem parse_file_threads (a b : Nat) (content : String) :
    parse_file { num_threads := a } content = parse_file { num_threads := b } content := rfl

theorem select_rows_threads (a b : Nat) (dataRows : List (List String)) :
    select_rows { num_threads := a } dataRows = select_rows { num_threads := b } dataRows := rfl

theorem arrow_columns_threads (a b na nb : Nat) (names : List String)
    (rows : List (List String)) :
    arrow_columns { num_threads := a }
        { column_names := names, rows := rows, num_threads := na } =
      arrow_columns { num_threads := b }
        { column_names := names, rows := rows, num_threads := nb } := rfl

/-- C2: for every input, parsing with one worker and parsing with two or more
workers yield a table with the same row count, column count and names, the
same row sequence across batch boundaries, and identical typed column
buffers. -/
theorem serial_parallel_consistency (content : String) (k : Nat) (_hk : 2 ≤ k)
    (t1 tk : Table)
    (h1 : read_csv (some content) { num_threads := 1 } = .ok t1)
    (h2 : read_csv (some content) { num_threads := k } = .ok tk) :
    t1.num_rows = tk.num_rows ∧ t1.num_columns = tk.num_columns ∧
    t1.column_names = tk.column_names ∧
    t1.batches.flatten = tk.batches.flatten ∧
    arrow_columns { num_threads := 1 } t1 = arrow_columns { num_threads := k } tk := by
  obtain ⟨c1, n1, d1, hc1, hp1, _, ht1⟩ := read_csv_ok_inv _ _ _ h1
  obtain ⟨c2, n2, d2, hc2, hp2, _, ht2⟩ := read_csv_ok_inv _ _ _ h2
  cases hc1
  cases hc2
  rw [parse_file_threads 1 k, hp2] at hp1
  cases hp1
  subst ht1
  subst ht2
  rw [select_rows_threads 1 k]
  refine ⟨rfl, rfl, rfl, ?_, ?_⟩
  · rw [Table.batches, Table.batches, mk_batches_flatten, mk_batches_flatten]
  · exact arrow_columns_threads 1 k 1 k _ _

/-- The table read_csv produces from the simple fixture with one worker. -/
def simple_table_serial : Table :=
  { column_names := ["name", "age", "city"],
    rows := [["Alice", "30", "New York"], ["Bob", "25", "Los Angeles"],
             ["Charlie", "35", "Chicago"]],
    num_threads := 1 }

/-- Witness for C2 at the simple fixture with worker counts one and four. -/
theorem serial_parallel_consistency_witness :
    simple_table_serial.num_rows = simple_table.num_rows ∧
    simple_table_serial.column_names = simple_table.column_names := by
  have h := serial_parallel_consistency simple_csv 4 (by decide)
    simple_table_serial simple_table (by decide) (by decide)
  exact ⟨h.1, h.2.2.1⟩

/-- C6: with skip_rows s and n_rows n on a file whose data rows are known,
read_csv returns exactly min n (R minus s) rows, for every s and n including
n zero and s beyond the end, since truncated subtraction is max 0 of R minus
s; whenever at least one row is requested the first returned row is data row
s; and with n_rows unset it returns R minus s rows. -/
theorem skip_rows_n_rows (content : String) (s n : Nat) (names : List String)
    (dataRows : List (List String)) (t t2 : Table)
    (hp : parse_file { skip_rows := s, n_rows := some n } content = .ok (names, dataRows))
    (h : read_csv (some content) { skip_rows := s, n_rows := some n } = .ok t)
    (h2 : read_csv (some content) { skip_rows := s } = .ok t2) :
    t.num_rows = min n (dataRows.length - s) ∧
    (0 < n → t.row 0 = dataRows[s]?) ∧
    t2.num_rows = dataRows.length - s := by
  obtain ⟨c1, n1, d1, hc1, hp1, _, ht1⟩ := read_csv_ok_inv _ _ _ h
  obtain ⟨c2, n2, d2, hc2, hp2, _, ht2⟩ := read_csv_ok_inv _ _ _ h2
  cases hc1
  cases hc2
  rw [hp] at hp1
  cases hp1
  have hpeq : parse_file { skip_rows := s } content =
      parse_file { skip_rows := s, n_rows := some n } content := rfl
  rw [hpeq, hp] at hp2
  cases hp2
  subst ht1
  subst ht2
  refine ⟨?_, ?_, ?_⟩
  · simp [Table.num_rows, select_rows, List.length_take, List.length_drop]
  · intro hn
    show ((dataRows.drop s).take n)[0]? = dataRows[s]?
    rw [List.getElem?_take, if_pos hn, List.getElem?_drop, Nat.add_zero]
  · simp [Table.num_rows, select_rows, List.length_drop]

/-- The ten-row id and value fixture of the test suite. -/
def larger_csv : String :=
  "id,value\n0,0\n1,10\n2,20\n3,30\n4,40\n5,50\n6,60\n7,70\n8,80\n9,90\n"

/-- Data rows of the ten-row fixture. -/
def larger_data : List (List String) :=
  [["0", "0"], ["1", "10"], ["2", "20"], ["3", "30"], ["4", "40"], ["5", "50"],
   ["6", "60"], ["7", "70"], ["8", "80"], ["9", "90"]]

/-- The table of the ten-row fixture with skip_rows two and n_rows four. -/
def larger_table_skip : Table :=
  { column_names := ["id", "value"],
    rows := [["2", "20"], ["3", "30"], ["4", "40"], ["5", "50"]],
    num_threads := 4 }

/-- The table of the ten-row fixture with skip_rows two and no n_rows. -/
def larger_table_skip_all : Table :=
  { column_names := ["id", "value"],
    rows := [["2", "20"], ["3", "30"], ["4", "40"], ["5", "50"], ["6", "60"],
             ["7", "70"], ["8", "80"], ["9", "90"]],
    num_threads := 4 }

/-- The empty table of the ten-row fixture when skip_rows exceeds the row
count. -/
def larger_table_skip_beyond : Table :=
  { column_names := ["id", "value"], rows := [], num_threads := 4 }

/-- Witness for C6 at the ten-row fixture, with skip two and limit four, and
with skip one hundred beyond the end of the file. -/
theorem skip_rows_n_rows_witness :
    larger_table_skip.num_rows = min 4 (larger_data.length - 2) ∧
    larger_table_skip.row 0 = larger_data[2]? ∧
    larger_table_skip_all.num_rows = larger_data.length - 2 ∧
    larger_table_skip_beyond.num_rows = larger_data.length - 100 := by
  have h1 := skip_rows_n_rows larger_csv 2 4 ["id", "value"] larger_data
    larger_table_skip larger_table_skip_all (by decide) (by decide) (by decide)
  have h2 := skip_rows_n_rows larger_csv 100 1 ["id", "value"] larger_data
    larger_table_skip_beyond larger_table_skip_beyond (by decide) (by decide) (by decide)
  exact ⟨h1.1, h1.2.1 (by decide), h1.2.2, h2.2.2⟩

/-- C7: the spec lists a public read_csv_rows operation, and the test suite
calls vroom_csv.read_csv_rows, but the package init file neither imports the
name from the native module nor lists it in __all__, so the attribute is
missing from the package namespace. -/
theorem read_csv_rows_missing_from_package :
    "read_csv_rows" ∈ spec_public_functions ∧
    "read_csv_rows" ∉ vroom_csv_core_imports ∧
    "read_csv_rows" ∉ vroom_csv_all_exports := by decide

/-- C8: a delimiter option that is not a single character makes read_csv and
read_csv_rows fail with the option-validation ValueError, whatever the file
contents are, including an unreadable path, so the error surfaces before any
I/O. -/
theorem invalid_delimiter_value_error (contents : Option String) (o : Options)
    (d : String) (hd : o.delimiter = some d) (hlen : d.length ≠ 1) :
    read_csv contents o =
      .error (.valueError "delimiter must be a single character") ∧
    read_csv_rows contents o =
      .error (.valueError "delimiter must be a single character") := by
  have hv : validate_options o =
      some (.valueError "delimiter must be a single character") := by
    unfold validate_options
    rw [hd]
    simp [hlen]
  constructor
  · unfold read_csv
    rw [hv]
  · unfold read_csv_rows
    rw [hv]

/-- Witness for C8 at an unreadable path and a two-character delimiter. -/
theorem invalid_delimiter_value_error_witness :
    read_csv none { delimiter := some ",," } =
      .error (.valueError "delimiter must be a single character") ∧
    read_csv_rows none { delimiter := some ",," } =
      .error (.valueError "delimiter must be a single character") :=
  invalid_delimiter_value_error none { delimiter := some ",," } ",," rfl (by decide)

theorem parse_file_no_header (o : Options) (content : String)
    (raws : List (List String)) (hh : o.has_header = some false)
    (hscan : scan_rows (effective_delim o content) content = .ok raws) :
    parse_file o content = .ok (auto_names ((raws.head?).getD []).length, raws) := by
  have he : effective_header o (null_tokens o) raws = false := by
    unfold effective_header
    rw [hh]
  unfold parse_file
  rw [hscan]
  simp [he]

theorem read_csv_rows_ok_inv (contents : Option String) (o : Options) (it : RowIter)
    (h : read_csv_rows contents o = .ok it) :
    ∃ content names dataRows, contents = some content ∧
      parse_file o content = .ok (names, dataRows) ∧
      it = { column_names := names,
             rows_list := (select_rows o dataRows).map fun r =>
               (List.range names.length).map fun j =>
                 let nm := (names[j]?).getD ""
                 (nm, row_value (null_tokens o) (lookup_dtype o nm) ((r[j]?).getD "")) } := by
  unfold read_csv_rows at h
  split at h
  · cases h
  · split at h
    · cases h
    · split at h
      · cases h
      · rename_i content pr names dataRows heq
        simp only at h
        cases h
        exact ⟨content, names, dataRows, rfl, heq, rfl⟩

/-- C9: with has_header false, both the table of read_csv and the iterator of
read_csv_rows use the auto-generated positional column names column_0 up to
column_(n-1), where n is the width of the first scanned row. -/
theorem auto_generated_column_names (content : String) (o : Options)
    (raws : List (List String)) (t : Table) (it : RowIter)
    (hh : o.has_header = some false)
    (hscan : scan_rows (effective_delim o content) content = .ok raws)
    (ht : read_csv (some content) o = .ok t)
    (hr : read_csv_rows (some content) o = .ok it) :
    t.column_names =
      (List.range ((raws.head?).getD []).length).map
        (fun i => "column_" ++ toString i) ∧
    it.column_names = t.column_names := by
  have hp := parse_file_no_header o content raws hh hscan
  obtain ⟨c1, n1, d1, hc1, hp1, _, ht1⟩ := read_csv_ok_inv _ _ _ ht
  obtain ⟨c2, n2, d2, hc2, hp2, ht2⟩ := read_csv_rows_ok_inv _ _ _ hr
  cases hc1
  cases hc2
  rw [hp] at hp1 hp2
  cases hp1
  cases hp2
  subst ht1
  subst ht2
  exact ⟨rfl, rfl⟩

/-- The header-free fixture of the test suite. -/
def no_header_csv : String := "Alice,30,New York\nBob,25,Los Angeles\nCharlie,35,Chicago\n"

/-- Scanned rows of the header-free fixture. -/
def no_header_rows : List (List String) :=
  [["Alice", "30", "New York"], ["Bob", "25", "Los Angeles"], ["Charlie", "35", "Chicago"]]

/-- The table read from the header-free fixture with has_header false. -/
def no_header_table : Table :=
  { column_names := ["column_0", "column_1", "column_2"],
    rows := no_header_rows,
    num_threads := 4 }

/-- The row iterator read from the header-free fixture with has_header
false. -/
def no_header_iter : RowIter :=
  { column_names := ["column_0", "column_1", "column_2"],
    rows_list :=
      [[("column_0", .rstr "Alice"), ("column_1", .rstr "30"),
        ("column_2", .rstr "New York")],
       [("column_0", .rstr "Bob"), ("column_1", .rstr "25"),
        ("column_2", .rstr "Los Angeles")],
       [("column_0", .rstr "Charlie"), ("column_1", .rstr "35"),
        ("column_2", .rstr "Chicago")]] }

/-- Witness for C9 at the header-free fixture. -/
theorem auto_generated_column_names_witness :
    no_header_table.column_names =
      (List.range ((no_header_rows.head?).getD []).length).map
        (fun i => "column_" ++ toString i) ∧
    no_header_iter.column_names = no_header_table.column_names :=
  auto_generated_column_names no_header_csv { has_header := some false }
    no_header_rows no_header_table no_header_iter rfl (by decide) (by decide) (by decide)

theorem mk_double_nat (sg : Bool) (v : Nat) (hv : v < 2 ^ 1024) :
    mk_double sg v 0 0 0 = some ⟨if sg then -(v : Int) else (v : Int), 0⟩ := by
  cases sg <;> simp [mk_double, dec_finite, hv]

theorem int64_parses_as_double (s : String) (n : Int)
    (h : parse_int64 s = some n) : parse_double s = some ⟨n, 0⟩ := by
  unfold parse_int64 at h
  unfold parse_double
  cases hcs : s.data with
  | nil =>
    rw [hcs] at h
    simp [parse_int64_chars] at h
  | cons c cs =>
    rw [hcs] at h
    simp only [parse_int64_chars] at h
    by_cases hc : c = '-'
    · subst hc
      rw [if_pos rfl] at h
      split at h
      pick_goal 2
      · exact absurd h (by simp)
      rename_i hcond
      obtain ⟨h1, h2, h3⟩ := hcond
      injection h with h4
      have hts : take_sign ('-' :: cs) = (true, cs) := by simp [take_sign]
      have hnat : (read_digits cs).2.1 < 2 ^ 1024 := by
        have h5 : (read_digits cs).2.1 ≤ 2 ^ 63 := by exact_mod_cast h3
        calc (read_digits cs).2.1 ≤ 2 ^ 63 := h5
          _ < 2 ^ 1024 := by norm_num
      simp only [parse_double_chars, hts]
      rw [h2]
      simp only [take_frac]
      have hne : ¬ ((read_digits cs).1 + 0 = 0) := by omega
      rw [if_neg hne]
      simp only [take_exp]
      rw [mk_double_nat true _ hnat]
      rw [← h4]
      simp
    · rw [if_neg hc] at h
      split at h
      pick_goal 2
      · exact absurd h (by simp)
      rename_i hcond
      obtain ⟨h1, h2, h3⟩ := hcond
      injection h with h4
      have hdig : is_digit c = true := by
        by_contra hnd
        have hrd : read_digits (c :: cs) = (0, 0, c :: cs) := by
          unfold read_digits
          simp [hnd]
        rw [hrd] at h1
        exact absurd h1 (by norm_num)
      have hplus : c ≠ '+' := by
        intro hceq
        subst hceq
        exact absurd hdig (by decide)
      have hts : take_sign (c :: cs) = (false, c :: cs) := by
        simp [take_sign, hc, hplus]
      have hnat : (read_digits (c :: cs)).2.1 < 2 ^ 1024 := by
        calc (read_digits (c :: cs)).2.1 ≤ 2 ^ 63 := Nat.le_of_lt h3
          _ < 2 ^ 1024 := by norm_num
      simp only [parse_double_chars, hts]
      rw [h2]
      simp only [take_frac]
      have hne : ¬ ((read_digits (c :: cs)).1 + 0 = 0) := by omega
      rw [if_neg hne]
      simp only [take_exp]
      rw [mk_double_nat false _ hnat]
      rw [← h4]
      simp

theorem lub_string_left (a : LogicalType) : lub .string a = .string := by
  cases a <;> rfl

theorem lub_string_right (a : LogicalType) : lub a .string = .string := by
  cases a <;> rfl

theorem foldl_lub_string_init (L : List LogicalType) :
    L.foldl lub .string = .string := by
  induction L with
  | nil => rfl
  | cons a L ih => rw [List.foldl_cons, lub_string_left, ih]

theorem foldl_lub_of_mem_string (L : List LogicalType) (init : LogicalType)
    (h : .string ∈ L) : L.foldl lub init = .string := by
  induction L generalizing init with
  | nil => cases h
  | cons a L ih =>
    rw [List.foldl_cons]
    rcases List.mem_cons.mp h with h1 | h2
    · rw [← h1, lub_string_right]
      exact foldl_lub_string_init L
    · exact ih _ h2

/-- C3: when every cell of a column falls inside the inference sample, the
materialized column type is the lattice join of the per-cell classes; INT64
joined with FLOAT64 is FLOAT64 and BOOL joined with INT64 is INT64, so the
test-suite mixes promote as claimed; any STRING-classified cell forces the
column to STRING; and every INT64 cell re-reads exactly as a double, so
widening preserves previously decoded integer values. -/
theorem inferred_type_is_lattice_join (o : Options) (name : String)
    (cells : List String) (hdt : lookup_dtype o name = none)
    (hinf : o.infer_types = true)
    (hs : cells.length ≤ sample_size o cells.length) :
    materialized_type o name cells =
      (cells.map (classify (null_tokens o))).foldl lub .null ∧
    lub .int64 .float64 = .float64 ∧
    lub .bool .int64 = .int64 ∧
    (∀ s ∈ cells, classify (null_tokens o) s = .string →
      materialized_type o name cells = .string) ∧
    (∀ s n, parse_int64 s = some n → parse_double s = some ⟨n, 0⟩) := by
  have hmain : materialized_type o name cells =
      (cells.map (classify (null_tokens o))).foldl lub .null := by
    unfold materialized_type
    rw [hdt]
    simp only [hinf, if_true]
    unfold column_type infer_sample_type
    rw [List.take_of_length_le hs, List.drop_eq_nil_of_le hs]
    simp
  refine ⟨hmain, rfl, rfl, ?_, fun s n h => int64_parses_as_double s n h⟩
  intro s hmem hcl
  rw [hmain]
  refine foldl_lub_of_mem_string _ _ ?_
  rw [← hcl]
  exact List.mem_map_of_mem _ hmem

set_option maxRecDepth 100000 in
/-- Witness for C3 at the int and double promotion column of the test
suite. -/
theorem inferred_type_is_lattice_join_witness :
    materialized_type {} "value" ["1", "2.5", "3"] =
      ((["1", "2.5", "3"].map (classify (null_tokens {}))).foldl lub .null) ∧
    materialized_type {} "value" ["1", "2.5", "3"] = .float64 := by
  have h := inferred_type_is_lattice_join {} "value" ["1", "2.5", "3"]
    rfl rfl (by decide)
  exact ⟨h.1, by decide⟩

theorem parse_bool_mem_iff (s : String) : (parse_bool s).isSome ↔ s ∈ bool_tokens := by
  unfold parse_bool bool_tokens
  simp only [List.mem_cons, List.not_mem_nil, or_false]
  by_cases h1 : s = "true" ∨ s = "TRUE" ∨ s = "True"
  · rw [if_pos h1]
    simp only [Option.isSome_some, true_iff]
    tauto
  · rw [if_neg h1]
    by_cases h2 : s = "false" ∨ s = "FALSE" ∨ s = "False"
    · rw [if_pos h2]
      simp only [Option.isSome_some, true_iff]
      tauto
    · rw [if_neg h2]
      simp only [Option.isSome_none, false_iff]
      tauto

set_option maxRecDepth 100000 in
/-- C4: for a cell that is not a null token, classification follows the
specified order: BOOL exactly for the six listed boolean forms, otherwise
INT64 exactly when the cell parses as a range-checked 64-bit integer,
otherwise FLOAT64 exactly when it parses as a finite double, otherwise
STRING; in particular yes and no are not boolean tokens and classify as
STRING, the largest int64 stays INT64, and the first value beyond the int64
range classifies FLOAT64. -/
theorem per_cell_classification (toks : List String) (s : String) (h : s ∉ toks) :
    (classify toks s = .bool ↔ s ∈ bool_tokens) ∧
    (classify toks s = .int64 ↔ s ∉ bool_tokens ∧ (parse_int64 s).isSome) ∧
    (classify toks s = .float64 ↔
      s ∉ bool_tokens ∧ ¬(parse_int64 s).isSome ∧ (parse_double s).isSome) ∧
    (classify toks s = .string ↔
      s ∉ bool_tokens ∧ ¬(parse_int64 s).isSome ∧ ¬(parse_double s).isSome) ∧
    classify (null_tokens {}) "yes" = .string ∧
    classify (null_tokens {}) "no" = .string ∧
    classify (null_tokens {}) "9223372036854775807" = .int64 ∧
    classify (null_tokens {}) "9223372036854775808" = .float64 := by
  refine ⟨?_, ?_, ?_, ?_, by decide, by decide, by decide, by decide⟩ <;>
    · unfold classify
      rw [if_neg h]
      by_cases hb : (parse_bool s).isSome
      · rw [if_pos hb]
        rw [parse_bool_mem_iff] at hb
        simp [hb]
      · have hb2 : s ∉ bool_tokens := by
          rw [← parse_bool_mem_iff]
          exact hb
        rw [if_neg hb]
        by_cases hi : (parse_int64 s).isSome
        · rw [if_pos hi]
          simp [hb2, hi]
        · rw [if_neg hi]
          by_cases hd : (parse_double s).isSome
          · rw [if_pos hd]
            simp [hb2, hi, hd]
          · rw [if_neg hd]
            simp [hb2, hi, hd]

/-- Witness for C4 at the yes cell with the default null tokens. -/
theorem per_cell_classification_witness :
    classify (null_tokens {}) "yes" = .bool ↔ "yes" ∈ bool_tokens := by
  have h := per_cell_classification (null_tokens {}) "yes" (by decide)
  exact h.1

/-- The mixed null token fixture of the test suite. -/
def null_mix_csv : String := "val\n10\nNA\n20\nN/A\n30\nnull\n40\n\n"

/-- The table read from the mixed null token fixture with defaults. -/
def null_mix_table : Table :=
  { column_names := ["val"],
    rows := [["10"], ["NA"], ["20"], ["N/A"], ["30"], ["null"], ["40"], [""]],
    num_threads := 4 }

/-- The Arrow column exported from the mixed null token fixture. -/
def null_mix_column : ArrowColumn :=
  { name := "val",
    logical_type := .int64,
    values := [.intv 10, .nullv, .intv 20, .nullv, .intv 30, .nullv, .intv 40, .nullv] }

set_option maxRecDepth 1000000 in
/-- C5: every cell whose decoded string is in the null token set decodes to a
null at its position in the materialized column; and the mixed null fixture
read with defaults yields one INT64 column with values 10, null, 20, null,
30, null, 40, null and null_count four. -/
theorem null_token_cells_null (o : Options) (ty : LogicalType)
    (cells : List String) (i : Nat) (s : String)
    (hi : cells[i]? = some s) (hs : s ∈ null_tokens o) :
    (cells.map (decode_cell (null_tokens o) ty))[i]? = some CellValue.nullv ∧
    read_csv (some null_mix_csv) {} = .ok null_mix_table ∧
    arrow_columns {} null_mix_table = [null_mix_column] ∧
    null_count null_mix_column = 4 := by
  refine ⟨?_, by decide, by decide, by decide⟩
  rw [List.getElem?_map, hi]
  simp [decode_cell, hs]

/-- Witness for C5 at the NA cell of a two-cell integer column. -/
theorem null_token_cells_null_witness :
    ((["10", "NA"].map (decode_cell (null_tokens {}) .int64))[1]? =
      some CellValue.nullv) ∧
    null_count null_mix_column = 4 := by
  have h := null_token_cells_null {} .int64 ["10", "NA"] 1 "NA" (by decide) (by decide)
  exact ⟨h.1, h.2.2.2⟩

/-- The typed mixed fixture of the test suite. -/
def mixed_csv : String :=
  "name,age,score,active\nAlice,30,95.5,true\nBob,25,87.0,false\nCharlie,35,92.75,true\n"

/-- The table read from the typed mixed fixture. -/
def mixed_table : Table :=
  { column_names := ["name", "age", "score", "active"],
    rows := [["Alice", "30", "95.5", "true"], ["Bob", "25", "87.0", "false"],
             ["Charlie", "35", "92.75", "true"]],
    num_threads := 4 }

theorem read_csv_infer_types_indep (content : String) (o : Options) (b1 b2 : Bool)
    (t1 t2 : Table)
    (h1 : read_csv (some content) { o with infer_types := b1 } = .ok t1)
    (h2 : read_csv (some content) { o with infer_types := b2 } = .ok t2) :
    t1.rows = t2.rows := by
  have hpe : parse_file { o with infer_types := b1 } content =
      parse_file { o with infer_types := b2 } content := by
    cases o
    rfl
  have hse : ∀ d, select_rows { o with infer_types := b1 } d =
      select_rows { o with infer_types := b2 } d := by
    intro d
    cases o
    rfl
  obtain ⟨c1, n1, d1, hc1, hp1, _, ht1⟩ := read_csv_ok_inv _ _ _ h1
  obtain ⟨c2, n2, d2, hc2, hp2, _, ht2⟩ := read_csv_ok_inv _ _ _ h2
  cases hc1
  cases hc2
  rw [hpe, hp2] at hp1
  cases hp1
  subst ht1
  subst ht2
  simp [hse]

set_option maxRecDepth 1000000 in
/-- C10: the row and column accessors of a table return the decoded field
texts as strings, unchanged by type inference: tables read with inference on
and off have identical rows; on the typed mixed fixture the age column
accessor yields the strings 30, 25, 35 even though the Arrow export types the
column INT64, and the typed value 30 is observable through read_csv_rows with
an explicit int64 dtype. -/
theorem table_accessors_expose_strings (content : String) (o : Options)
    (b1 b2 : Bool) (t1 t2 : Table)
    (h1 : read_csv (some content) { o with infer_types := b1 } = .ok t1)
    (h2 : read_csv (some content) { o with infer_types := b2 } = .ok t2) :
    (∀ i, t1.row i = t2.row i) ∧
    read_csv (some mixed_csv) {} = .ok mixed_table ∧
    mixed_table.column "age" = some ["30", "25", "35"] ∧
    ((arrow_columns {} mixed_table).map fun c => (c.name, c.logical_type)) =
      [("name", .string), ("age", .int64), ("score", .float64), ("active", .bool)] ∧
    (read_csv_rows (some mixed_csv) { dtype := [("age", LogicalType.int64)] }).map
        (fun it => it.rows_list[0]?) =
      .ok (some [("name", .rstr "Alice"), ("age", .rint 30),
                 ("score", .rstr "95.5"), ("active", .rstr "true")]) := by
  refine ⟨?_, by decide, by decide, by decide, by decide⟩
  intro i
  unfold Table.row
  rw [read_csv_infer_types_indep content o b1 b2 t1 t2 h1 h2]

set_option maxRecDepth 1000000 in
/-- Witness for C10 at the typed mixed fixture with inference on and off. -/
theorem table_accessors_expose_strings_witness :
    mixed_table.row 0 = mixed_table.row 0 ∧
    mixed_table.column "age" = some ["30", "25", "35"] := by
  have h := table_accessors_expose_strings mixed_csv {} true false
    mixed_table mixed_table (by decide) (by decide)
  exact ⟨h.1 0, h.2.2.1⟩
